import Mathlib

/-!
Shallow embedding of the fafftime temporal segmentation engine
(src/main.ts, src/analysis.js, src/utils.js, src/utils/gps-utils.ts).

Conventions of the embedding:
* JavaScript numbers are modelled as exact rationals `ℚ`; `Date` values are
  modelled by their millisecond time value as `ℚ`.
* A field that may be `undefined` in a record is an `Option`.
* JavaScript truthiness on an optional number (`x || d`, `if (x)`) is
  modelled by `truthyNum` / `jsOrNum`: absent and `0` are falsy.
* `Date` objects are always truthy in JavaScript, so truthiness of a
  timestamp is just `Option.isSome`.
* `dateA - dateB` with an absent operand is `NaN` in JavaScript; every
  comparison against `NaN` is false.  We model such differences as
  `Option ℚ` with `none` for `NaN`, and `gtNum none c = false`.
* Code that can throw (a property access on `undefined`) is modelled in
  `Except String`.
-/

namespace Fafftime

/-- Truthiness of an optional JavaScript number: absent and `0` are falsy. -/
def truthyNum : Option ℚ → Bool
  | none => false
  | some v => v != 0

/-- Truthiness of an optional JavaScript integer (semicircle coordinates). -/
def truthyInt : Option Int → Bool
  | none => false
  | some v => v != 0

/-- JavaScript `a || d` on an optional number: yields the value when truthy,
else the default. -/
def jsOrNum (a : Option ℚ) (d : ℚ) : ℚ :=
  if truthyNum a then a.getD 0 else d

/-- Difference of two optional date values; `none` models the `NaN` produced
by subtraction with an absent operand. -/
def dateSub : Option ℚ → Option ℚ → Option ℚ
  | some a, some b => some (a - b)
  | _, _ => none

/-- JavaScript `x > c` where `x` may be `NaN` (`none`): false on `NaN`. -/
def gtNum (x : Option ℚ) (c : ℚ) : Bool :=
  match x with
  | some v => v > c
  | none => false

/-- JavaScript `Math.round`: round half toward positive infinity. -/
def jsRound (q : ℚ) : Int := ⌊q + 1/2⌋

/-- JavaScript `new Date(v)` time-value clipping: truncation toward zero. -/
def jsTrunc (q : ℚ) : Int := if q < 0 then -⌊-q⌋ else ⌊q⌋

/-- Garmin semicircle to decimal degrees: `value * (180 / 2^31)`. -/
def semicircleToDegrees (v : Int) : ℚ := (v : ℚ) * (180 / 2 ^ 31)

/-- One per-sample record message (interface `FitRecord`, src/main.ts). -/
structure FitRecord where
  timestamp : Option ℚ
  speed : Option ℚ
  enhancedSpeed : Option ℚ
  distance : Option ℚ
  positionLat : Option Int
  positionLong : Option Int
deriving DecidableEq, Repr

/-- One session summary message (interface `FitSession`, src/main.ts). -/
structure FitSession where
  startTime : Option ℚ
  totalTimerTime : Option ℚ
  totalElapsedTime : Option ℚ
  totalDistance : Option ℚ
deriving DecidableEq, Repr

/-- Result of `extractActivityTimes` (interface `ActivityTimes`, src/main.ts). -/
structure ActivityTimes where
  startTime : Option ℚ
  endTime : Option ℚ
  movingTime : Option ℚ
  totalDistance : Option ℚ
deriving DecidableEq, Repr

/-- One recording-gap descriptor (interface `TimestampGap`, src/main.ts). -/
structure TimestampGap where
  startTime : ℚ
  endTime : ℚ
  gapDuration : ℚ
  gapDurationMinutes : Int
  gapDurationHours : ℚ
  startDistance : ℚ
  endDistance : ℚ
  startGpsPoint : Option (ℚ × ℚ)
  endGpsPoint : Option (ℚ × ℚ)
deriving DecidableEq, Repr

/-- Unified output period (interface `SlowPeriod`, src/main.ts); slow runs
leave `isGap := false` and `gapData := none`. -/
structure Period where
  startTime : Option ℚ
  endTime : Option ℚ
  recordCount : Nat
  startDistance : ℚ
  endDistance : ℚ
  gpsPoints : List (ℚ × ℚ)
  isGap : Bool
  gapData : Option TimestampGap
deriving DecidableEq, Repr

/-- Speed threshold below which a sample is "slow": 0.75 m/s
(src/utils/constants.ts). -/
def SPEED_THRESHOLD : ℚ := 3 / 4

/-- Effective speed of a record: `record.enhancedSpeed || record.speed || 0`
(src/main.ts line 731). -/
def effectiveSpeed (record : FitRecord) : ℚ :=
  jsOrNum record.enhancedSpeed (jsOrNum record.speed 0)

/-- `matchesTimeRange` (src/utils.js lines 19-29): the switch over the six
bucket tags, `default: false`. -/
def matchesTimeRange (range : String) (durationMinutes durationHours : ℚ) : Bool :=
  if range = "2to5" then decide (2 ≤ durationMinutes ∧ durationMinutes < 5)
  else if range = "5to10" then decide (5 ≤ durationMinutes ∧ durationMinutes < 10)
  else if range = "10to30" then decide (10 ≤ durationMinutes ∧ durationMinutes < 30)
  else if range = "30to60" then decide (30 ≤ durationMinutes ∧ durationMinutes < 60)
  else if range = "1to2hours" then decide (1 ≤ durationHours ∧ durationHours < 2)
  else if range = "over2hours" then decide (2 ≤ durationHours)
  else false

/-- `matchesTimeRange` applied to durations that may be `NaN` (`none`), as
happens when a run's boundary timestamps are absent: every comparison with
`NaN` is false, so no branch matches. -/
def matchesTimeRangeOpt (range : String) (m h : Option ℚ) : Bool :=
  match m, h with
  | some dm, some dh => matchesTimeRange range dm dh
  | _, _ => false

/-- `convertGpsCoordinates` (src/utils.js lines 34-41): truthiness filter on
both coordinates, then semicircle conversion; order preserving. -/
def convertGpsCoordinates (records : List FitRecord) : List (ℚ × ℚ) :=
  (records.filter fun record =>
      truthyInt record.positionLat && truthyInt record.positionLong).map
    fun record =>
      (semicircleToDegrees (record.positionLat.getD 0),
       semicircleToDegrees (record.positionLong.getD 0))

/-- GPS point of a single record as built inline by `findTimestampGaps`
(src/main.ts lines 890-895): the same truthiness check and conversion. -/
def gpsPointOf (record : FitRecord) : Option (ℚ × ℚ) :=
  if truthyInt record.positionLat && truthyInt record.positionLong then
    some (semicircleToDegrees (record.positionLat.getD 0),
          semicircleToDegrees (record.positionLong.getD 0))
  else none

/-- Session branch of `extractActivityTimes` (src/main.ts lines 822-831).
When `totalElapsedTime` is truthy the code evaluates `startTime.getTime()`,
which throws a `TypeError` if the session has no `startTime`. -/
def sessionTimes (sessions : List FitSession) : Except String ActivityTimes :=
  match sessions with
  | [] => .ok { startTime := none, endTime := none, movingTime := none, totalDistance := none }
  | session :: _ =>
    if truthyNum session.totalElapsedTime then
      match session.startTime with
      | none => .error "TypeError: startTime is undefined"
      | some st =>
        .ok { startTime := some st,
              endTime := some ((jsTrunc (st + session.totalElapsedTime.getD 0 * 1000) : ℚ)),
              movingTime := session.totalTimerTime,
              totalDistance := session.totalDistance }
    else
      .ok { startTime := session.startTime,
            endTime := none,
            movingTime := session.totalTimerTime,
            totalDistance := session.totalDistance }

/-- `extractActivityTimes` (src/main.ts lines 816-840): session branch first,
then, whenever any record exists, `startTime`/`endTime` are overwritten with
the first and last record timestamps. -/
def extractActivityTimes (sessions : List FitSession) (records : List FitRecord) :
    Except String ActivityTimes :=
  match sessionTimes sessions with
  | .error e => .error e
  | .ok t =>
    match records with
    | [] => .ok t
    | r :: rs =>
      .ok { t with
            startTime := r.timestamp,
            endTime := ((r :: rs).getLast (List.cons_ne_nil r rs)).timestamp }

/-- Gap descriptor pushed by `findTimestampGaps` for a qualifying pair
(src/main.ts lines 880-896). -/
def mkGap (previousRecord currentRecord : FitRecord) (t1 t2 : ℚ) : TimestampGap :=
  { startTime := t1,
    endTime := t2,
    gapDuration := t2 - t1,
    gapDurationMinutes := jsRound ((t2 - t1) / 60000),
    gapDurationHours := (jsRound ((t2 - t1) / 60000) : ℚ) / 60,
    startDistance := jsOrNum previousRecord.distance 0,
    endDistance := jsOrNum currentRecord.distance 0,
    startGpsPoint := gpsPointOf previousRecord,
    endGpsPoint := gpsPointOf currentRecord }

/-- `findTimestampGaps` (src/main.ts lines 851-901): walk consecutive pairs,
skip a pair when either timestamp is absent, emit when the difference
strictly exceeds the threshold. -/
def findTimestampGaps (thresholdMs : ℚ) : List FitRecord → List TimestampGap
  | [] => []
  | [_] => []
  | previousRecord :: currentRecord :: rest =>
    (match previousRecord.timestamp, currentRecord.timestamp with
     | some t1, some t2 =>
       if t2 - t1 > thresholdMs then [mkGap previousRecord currentRecord t1 t2] else []
     | _, _ => []) ++ findTimestampGaps thresholdMs (currentRecord :: rest)

/-- `processSlowSequence` (src/main.ts lines 912-948): the run finalizer. -/
def processSlowSequence (currentSlowSequence : List FitRecord)
    (selectedRanges : List String) : Option Period :=
  match currentSlowSequence with
  | [] => none
  | startRecord :: rest =>
    let endRecord := (startRecord :: rest).getLast (List.cons_ne_nil startRecord rest)
    let durationMs := dateSub endRecord.timestamp startRecord.timestamp
    let durationMinutes := durationMs.map fun d => d / 60000
    let durationHours := durationMinutes.map fun m => m / 60
    if selectedRanges.any fun range => matchesTimeRangeOpt range durationMinutes durationHours then
      let startDistance := jsOrNum startRecord.distance 0
      some { startTime := startRecord.timestamp,
             endTime := endRecord.timestamp,
             recordCount := (startRecord :: rest).length,
             startDistance := startDistance,
             endDistance := jsOrNum endRecord.distance startDistance,
             gpsPoints := convertGpsCoordinates (startRecord :: rest),
             isGap := false,
             gapData := none }
    else none

/-- Phase-1 scan loop of `findSlowPeriodsWithRanges` (src/main.ts lines
728-774), gap-aware mode: `cur` is the accumulating slow sequence, the
second list the remaining records; the trailing run is flushed at the end. -/
def slowLoop (selectedRanges : List String) (thresholdMs : ℚ) :
    List FitRecord → List FitRecord → List Period
  | cur, [] => (processSlowSequence cur selectedRanges).toList
  | cur, record :: rest =>
    if effectiveSpeed record < SPEED_THRESHOLD then
      match cur.getLast? with
      | some previousRecord =>
        if gtNum (dateSub record.timestamp previousRecord.timestamp) thresholdMs then
          (processSlowSequence cur selectedRanges).toList
            ++ slowLoop selectedRanges thresholdMs [record] rest
        else
          slowLoop selectedRanges thresholdMs (cur ++ [record]) rest
      | none => slowLoop selectedRanges thresholdMs [record] rest
    else
      (processSlowSequence cur selectedRanges).toList
        ++ slowLoop selectedRanges thresholdMs [] rest

/-- Conversion of a gap descriptor to the unified period shape
(src/main.ts lines 789-801). -/
def gapAsPeriod (gap : TimestampGap) : Period :=
  { startTime := some gap.startTime,
    endTime := some gap.endTime,
    recordCount := 0,
    startDistance := gap.startDistance,
    endDistance := gap.endDistance,
    gpsPoints :=
      match gap.startGpsPoint, gap.endGpsPoint with
      | some s, some e => [s, e]
      | some s, none => [s]
      | none, some e => [e]
      | none, none => [],
    isGap := true,
    gapData := some gap }

/-- Sort key used by the final `sort((a, b) => a.startTime - b.startTime)`
(src/main.ts line 808); every emitted period carries a present start time. -/
def startKey (p : Period) : ℚ := p.startTime.getD 0

instance decPeriodLe : DecidableRel (fun a b : Period => startKey a ≤ startKey b) :=
  fun a b => inferInstanceAs (Decidable (startKey a ≤ startKey b))

/-- The final chronological sort (src/main.ts line 808); JavaScript `sort`
is stable, modelled by stable insertion sort. -/
def sortPeriods (l : List Period) : List Period :=
  l.insertionSort fun a b => startKey a ≤ startKey b

/-- Phase 1 of `findSlowPeriodsWithRanges`: the slow-run periods in scan
order. -/
def slowRunPeriods (records : List FitRecord) (selectedRanges : List String)
    (thresholdMs : ℚ) : List Period :=
  slowLoop selectedRanges thresholdMs [] records

/-- Phase 2 of `findSlowPeriodsWithRanges` (src/main.ts lines 777-804): the
recording gaps whose own rounded duration matches a selected bucket, in scan
order. -/
def qualifyingGapPeriods (records : List FitRecord) (selectedRanges : List String)
    (thresholdMs : ℚ) : List Period :=
  (findTimestampGaps thresholdMs records).filterMap fun gap =>
    if selectedRanges.any fun range =>
        matchesTimeRange range (gap.gapDurationMinutes : ℚ) gap.gapDurationHours then
      some (gapAsPeriod gap)
    else none

/-- `findSlowPeriodsWithRanges` (src/main.ts lines 719-811): early return on
an empty selection, slow-run scan, gap filtering, chronological sort.  The
gap threshold read from the UI dropdown is passed as `thresholdMs`. -/
def findSlowPeriodsWithRanges (records : List FitRecord) (selectedRanges : List String)
    (thresholdMs : ℚ) : List Period :=
  if selectedRanges.isEmpty then []
  else
    sortPeriods (slowRunPeriods records selectedRanges thresholdMs
      ++ qualifyingGapPeriods records selectedRanges thresholdMs)

/-- Monotonicity precondition on record timestamps: whenever both records of
a pair carry a timestamp, the earlier record's timestamp is not larger. -/
def recLe (r1 r2 : FitRecord) : Prop :=
  ∀ t1 t2 : ℚ, r1.timestamp = some t1 → r2.timestamp = some t2 → t1 ≤ t2

/-! ## Helper lemmas -/

/-- The gap scan is exactly a `filterMap` over the list of consecutive
pairs. -/
theorem findTimestampGaps_eq_pairs (thresholdMs : ℚ) (records : List FitRecord) :
    findTimestampGaps thresholdMs records =
      (records.zip records.tail).filterMap fun pc =>
        match pc.1.timestamp, pc.2.timestamp with
        | some t1, some t2 =>
          if t2 - t1 > thresholdMs then some (mkGap pc.1 pc.2 t1 t2) else none
        | _, _ => none := by
  induction records with
  | nil => rfl
  | cons p rest ih =>
    cases rest with
    | nil => rfl
    | cons c rest2 =>
      rw [findTimestampGaps]
      conv_rhs => rw [List.tail_cons, List.zip_cons_cons, List.filterMap_cons]
      rw [List.tail_cons] at ih
      rw [← ih]
      rcases hp : p.timestamp with _ | t1 <;> rcases hc : c.timestamp with _ | t2 <;>
        simp only [List.nil_append]
      split <;> simp

/-! ## Claim theorems -/

/-- C1 (code_bug): the spec says `extractActivityTimes` never throws, but
when the first session summary has a truthy `totalElapsedTime` and no
`startTime`, the code evaluates `startTime.getTime()` on `undefined` and
throws a `TypeError` — with or without samples present. -/
theorem extractActivityTimes_throws_on_missing_startTime :
    extractActivityTimes
        [{ startTime := none, totalTimerTime := none,
           totalElapsedTime := some 60, totalDistance := none }] []
      = .error "TypeError: startTime is undefined"
    ∧ extractActivityTimes
        [{ startTime := none, totalTimerTime := none,
           totalElapsedTime := some 60, totalDistance := none }]
        [{ timestamp := some 0, speed := none, enhancedSpeed := none, distance := none,
           positionLat := none, positionLong := none }]
      = .error "TypeError: startTime is undefined" :=
  ⟨rfl, rfl⟩

/-- C2: `findTimestampGaps` emits exactly one descriptor per consecutive
pair with both timestamps present whose difference strictly exceeds the
threshold (equality emits nothing, an absent timestamp skips the pair), in
scan order, with `gapDurationMinutes = round(diff / 60000)`,
`gapDurationHours = gapDurationMinutes / 60`, and distances defaulting to 0
when absent. -/
theorem findTimestampGaps_consecutive_pairs_spec (thresholdMs : ℚ) (records : List FitRecord) :
    findTimestampGaps thresholdMs records =
      (records.zip records.tail).filterMap fun pc =>
        match pc.1.timestamp, pc.2.timestamp with
        | some t1, some t2 =>
          if t2 - t1 > thresholdMs then
            some { startTime := t1,
                   endTime := t2,
                   gapDuration := t2 - t1,
                   gapDurationMinutes := jsRound ((t2 - t1) / 60000),
                   gapDurationHours := (jsRound ((t2 - t1) / 60000) : ℚ) / 60,
                   startDistance := jsOrNum pc.1.distance 0,
                   endDistance := jsOrNum pc.2.distance 0,
                   startGpsPoint := gpsPointOf pc.1,
                   endGpsPoint := gpsPointOf pc.2 }
          else none
        | _, _ => none :=
  findTimestampGaps_eq_pairs thresholdMs records

/-- C3: whenever the record list is non-empty, the `ActivityTimes` returned
by `extractActivityTimes` carries the first record's timestamp as
`startTime` and the last record's timestamp as `endTime`, for every session
list — the summary-derived values are unconditionally overwritten. -/
theorem extractActivityTimes_sample_boundaries_override
    (sessions : List FitSession) (records : List FitRecord)
    (firstRec lastRec : FitRecord) (t : ActivityTimes)
    (hfirst : records.head? = some firstRec)
    (hlast : records.getLast? = some lastRec)
    (hok : extractActivityTimes sessions records = .ok t) :
    t.startTime = firstRec.timestamp ∧ t.endTime = lastRec.timestamp := by
  cases records with
  | nil => simp at hfirst
  | cons r rs =>
    rw [List.head?_cons, Option.some_inj] at hfirst
    subst hfirst
    rw [List.getLast?_eq_getLast_of_ne_nil (List.cons_ne_nil _ _),
      Option.some_inj] at hlast
    unfold extractActivityTimes at hok
    cases hs : sessionTimes sessions with
    | error e => rw [hs] at hok; cases hok
    | ok t0 =>
      rw [hs] at hok
      simp only [Except.ok.injEq] at hok
      subst hok
      exact ⟨rfl, by rw [hlast]⟩

/-- Witness for C3 at a concrete session list and two concrete records. -/
theorem extractActivityTimes_override_witness :
    ({ startTime := some 1000, endTime := some 2000, movingTime := some 10,
       totalDistance := some 5 } : ActivityTimes).startTime = some (1000 : ℚ)
    ∧ ({ startTime := some 1000, endTime := some 2000, movingTime := some 10,
         totalDistance := some 5 } : ActivityTimes).endTime = some (2000 : ℚ) :=
  extractActivityTimes_sample_boundaries_override
    [{ startTime := some 0, totalTimerTime := some 10, totalElapsedTime := some 100,
       totalDistance := some 5 }]
    [{ timestamp := some 1000, speed := none, enhancedSpeed := none, distance := none,
       positionLat := none, positionLong := none },
     { timestamp := some 2000, speed := none, enhancedSpeed := none, distance := none,
       positionLat := none, positionLong := none }]
    _ _ _ rfl rfl rfl

/-- C5: `matchesTimeRange` is total and implements exactly the six half-open
bucket predicates; it yields `true` only on a recognized tag whose range
contains the duration, hence `false` on every unrecognized tag. -/
theorem matchesTimeRange_bucket_spec (range : String) (m h : ℚ) :
    matchesTimeRange range m h = true ↔
      ((range = "2to5" ∧ 2 ≤ m ∧ m < 5) ∨
       (range = "5to10" ∧ 5 ≤ m ∧ m < 10) ∨
       (range = "10to30" ∧ 10 ≤ m ∧ m < 30) ∨
       (range = "30to60" ∧ 30 ≤ m ∧ m < 60) ∨
       (range = "1to2hours" ∧ 1 ≤ h ∧ h < 2) ∨
       (range = "over2hours" ∧ 2 ≤ h)) := by
  unfold matchesTimeRange
  split_ifs with h1 h2 h3 h4 h5 h6 <;> subst_eqs <;> simp_all

/-- C8: `convertGpsCoordinates` keeps exactly the records with both
coordinates present and nonzero (a value of exactly 0 is dropped), converts
each kept pair by `* 180 / 2^31`, and preserves order. -/
theorem convertGpsCoordinates_spec (records : List FitRecord) :
    convertGpsCoordinates records =
      records.filterMap fun record =>
        match record.positionLat, record.positionLong with
        | some lat, some lon =>
          if lat ≠ 0 ∧ lon ≠ 0 then
            some ((lat : ℚ) * (180 / 2 ^ 31), (lon : ℚ) * (180 / 2 ^ 31))
          else none
        | _, _ => none := by
  induction records with
  | nil => rfl
  | cons r rest ih =>
    simp only [convertGpsCoordinates, List.filter_cons, List.filterMap_cons] at *
    rcases hla : r.positionLat with _ | lat <;> rcases hlo : r.positionLong with _ | lon <;>
      simp_all [truthyInt, semicircleToDegrees]
    by_cases hz : lat = 0 <;> by_cases hz2 : lon = 0 <;> simp_all

/-- C4 (counterexample): the claim says `endDistance` falls back to
`startDistance` only when the last sample's distance is *missing*; but the
code uses `||`, so a present distance of exactly `0` also triggers the
fallback.  With first distance 5000 and last distance 0 over a 3-minute run,
the code yields `endDistance = 5000`, not the present value `0`. -/
theorem processSlowSequence_endDistance_counterexample :
    (processSlowSequence
        [{ timestamp := some 0, speed := none, enhancedSpeed := none, distance := some 5000,
           positionLat := none, positionLong := none },
         { timestamp := some 180000, speed := none, enhancedSpeed := none, distance := some 0,
           positionLat := none, positionLong := none }] ["2to5"]).map Period.endDistance
      = some 5000
    ∧ ({ timestamp := some 180000, speed := none, enhancedSpeed := none, distance := some 0,
         positionLat := none, positionLong := none } : FitRecord).distance = some 0
    ∧ (5000 : ℚ) ≠ 0 := by
  refine ⟨?_, rfl, by norm_num⟩
  norm_num [processSlowSequence, dateSub, matchesTimeRangeOpt, matchesTimeRange,
    jsOrNum, truthyNum, convertGpsCoordinates, truthyInt]

/-- C4 (amended): `processSlowSequence` returns `none` for an empty run and
for a run whose duration matches no selected bucket; otherwise the
descriptor's `startDistance` is the first sample's distance when present and
nonzero (else 0), and `endDistance` is the last sample's distance when
present and nonzero, falling back to `startDistance` when it is missing or
zero — the `jsOrNum` truthiness semantics of `||`. -/
theorem processSlowSequence_finalizer_spec
    (run : List FitRecord) (ranges : List String) :
    processSlowSequence [] ranges = none
    ∧ (∀ firstRec lastRec : FitRecord,
        run.head? = some firstRec → run.getLast? = some lastRec →
        (ranges.any fun range =>
            matchesTimeRangeOpt range
              ((dateSub lastRec.timestamp firstRec.timestamp).map fun d => d / 60000)
              (((dateSub lastRec.timestamp firstRec.timestamp).map fun d => d / 60000).map
                fun m => m / 60)) = false →
        processSlowSequence run ranges = none)
    ∧ (∀ p : Period, processSlowSequence run ranges = some p →
        ∃ firstRec lastRec : FitRecord,
          run.head? = some firstRec ∧ run.getLast? = some lastRec ∧
          p.startDistance = jsOrNum firstRec.distance 0 ∧
          p.endDistance = jsOrNum lastRec.distance (jsOrNum firstRec.distance 0)) := by
  refine ⟨rfl, ?_, ?_⟩
  · intro firstRec lastRec hf hl hfalse
    cases run with
    | nil => simp at hf
    | cons s rest =>
      rw [List.head?_cons, Option.some_inj] at hf
      subst hf
      rw [List.getLast?_eq_getLast_of_ne_nil (List.cons_ne_nil _ _), Option.some_inj] at hl
      subst hl
      rw [processSlowSequence]
      simp only [hfalse]
      simp
  · intro p hp
    cases run with
    | nil => simp [processSlowSequence] at hp
    | cons s rest =>
      refine ⟨s, (s :: rest).getLast (List.cons_ne_nil s rest), rfl,
        List.getLast?_eq_getLast_of_ne_nil _, ?_⟩
      rw [processSlowSequence] at hp
      split at hp
      · rw [Option.some_inj] at hp
        subst hp
        exact ⟨rfl, rfl⟩
      · cases hp

/-- Witness for C4's amended theorem: a 30-second run matches no bucket in
the selection {2to5}, so the finalizer discards it. -/
theorem processSlowSequence_finalizer_spec_witness :
    processSlowSequence
        [{ timestamp := some 0, speed := none, enhancedSpeed := none, distance := none,
           positionLat := none, positionLong := none },
         { timestamp := some 30000, speed := none, enhancedSpeed := none, distance := none,
           positionLat := none, positionLong := none }] ["2to5"] = none :=
  (processSlowSequence_finalizer_spec
      [{ timestamp := some 0, speed := none, enhancedSpeed := none, distance := none,
         positionLat := none, positionLong := none },
       { timestamp := some 30000, speed := none, enhancedSpeed := none, distance := none,
         positionLat := none, positionLong := none }] ["2to5"]).2.1
    _ _ rfl rfl (by norm_num [matchesTimeRangeOpt, matchesTimeRange, dateSub])

/-- C7: in the gap-aware scan, when the next record is itself slow but its
time delta to the last record of the accumulated run exceeds the gap
threshold, the accumulated run is finalized immediately and the new run
starts containing exactly the current record. -/
theorem slowLoop_gap_splits_slow_run
    (ranges : List String) (thresholdMs : ℚ) (cur : List FitRecord)
    (record prev : FitRecord) (rest : List FitRecord)
    (hprev : cur.getLast? = some prev)
    (hslow : effectiveSpeed record < SPEED_THRESHOLD)
    (hgap : gtNum (dateSub record.timestamp prev.timestamp) thresholdMs = true) :
    slowLoop ranges thresholdMs cur (record :: rest)
      = (processSlowSequence cur ranges).toList
        ++ slowLoop ranges thresholdMs [record] rest := by
  rw [slowLoop, if_pos hslow, hprev]
  simp only [hgap]
  simp

/-- Witness for C7: a single-record run split by a 10-minute jump to the
next slow record under the default 5-minute threshold. -/
theorem slowLoop_gap_splits_witness :
    slowLoop ["2to5"] 300000
        [{ timestamp := some 0, speed := none, enhancedSpeed := none, distance := none,
           positionLat := none, positionLong := none }]
        [{ timestamp := some 600000, speed := none, enhancedSpeed := none, distance := none,
           positionLat := none, positionLong := none }]
      = (processSlowSequence
          [{ timestamp := some 0, speed := none, enhancedSpeed := none, distance := none,
             positionLat := none, positionLong := none }] ["2to5"]).toList
        ++ slowLoop ["2to5"] 300000
            [{ timestamp := some 600000, speed := none, enhancedSpeed := none, distance := none,
               positionLat := none, positionLong := none }] [] :=
  slowLoop_gap_splits_slow_run ["2to5"] 300000 _ _ _ [] rfl
    (by norm_num [effectiveSpeed, jsOrNum, truthyNum, SPEED_THRESHOLD])
    (by norm_num [gtNum, dateSub])

/-! ## Merge lemmas -/

theorem processSlowSequence_nil_ranges (cur : List FitRecord) :
    processSlowSequence cur [] = none := by
  cases cur <;> simp [processSlowSequence]

theorem slowLoop_nil_ranges (thresholdMs : ℚ) :
    ∀ (rest cur : List FitRecord), slowLoop [] thresholdMs cur rest = [] := by
  intro rest
  induction rest with
  | nil => intro cur; simp [slowLoop, processSlowSequence_nil_ranges]
  | cons r rest2 ih =>
    intro cur
    rw [slowLoop]
    split
    · cases cur.getLast? with
      | some prev => simp only []; split <;> simp [processSlowSequence_nil_ranges, ih]
      | none => simp only []; exact ih _
    · simp [processSlowSequence_nil_ranges, ih]

theorem filterMap_if_eq_map_filter {α β : Type} (p : α → Bool) (f : α → β) (l : List α) :
    (l.filterMap fun a => if p a then some (f a) else none) = (l.filter p).map f := by
  induction l with
  | nil => rfl
  | cons a l ih => by_cases h : p a <;> simp [List.filter_cons, h, ih]

instance : IsTotal Period (fun a b => startKey a ≤ startKey b) :=
  ⟨fun a b => le_total (startKey a) (startKey b)⟩

instance : IsTrans Period (fun a b => startKey a ≤ startKey b) :=
  ⟨fun _ _ _ h1 h2 => le_trans h1 h2⟩

theorem sortPeriods_sorted (l : List Period) :
    (sortPeriods l).Pairwise (fun a b => startKey a ≤ startKey b) :=
  List.sorted_insertionSort (fun a b => startKey a ≤ startKey b) l

theorem sortPeriods_perm (l : List Period) : (sortPeriods l).Perm l :=
  List.perm_insertionSort (fun a b => startKey a ≤ startKey b) l

theorem mem_sortPeriods {p : Period} {l : List Period} : p ∈ sortPeriods l ↔ p ∈ l :=
  (sortPeriods_perm l).mem_iff

/-- C6: the merged output is the slow-run periods together with exactly the
recording gaps whose own `(gapDurationMinutes, gapDurationHours)` match the
same selected bucket set, stably sorted ascending by start time
(`sortPeriods` is a stable insertion sort): the pipeline equals the
concatenation sorted, the qualifying gaps are an order-preserving filter of
the detected gaps, and the output is sorted by start time and a permutation
of the concatenation. -/
theorem findSlowPeriodsWithRanges_merge_spec
    (records : List FitRecord) (ranges : List String) (thresholdMs : ℚ) :
    findSlowPeriodsWithRanges records ranges thresholdMs
        = sortPeriods (slowRunPeriods records ranges thresholdMs
            ++ qualifyingGapPeriods records ranges thresholdMs)
    ∧ qualifyingGapPeriods records ranges thresholdMs
        = ((findTimestampGaps thresholdMs records).filter fun gap =>
            ranges.any fun range =>
              matchesTimeRange range (gap.gapDurationMinutes : ℚ) gap.gapDurationHours).map
            gapAsPeriod
    ∧ (findSlowPeriodsWithRanges records ranges thresholdMs).Pairwise
        (fun a b => startKey a ≤ startKey b)
    ∧ (findSlowPeriodsWithRanges records ranges thresholdMs).Perm
        (slowRunPeriods records ranges thresholdMs
          ++ qualifyingGapPeriods records ranges thresholdMs) := by
  have h1 : findSlowPeriodsWithRanges records ranges thresholdMs
      = sortPeriods (slowRunPeriods records ranges thresholdMs
          ++ qualifyingGapPeriods records ranges thresholdMs) := by
    unfold findSlowPeriodsWithRanges
    split
    · rename_i hemp
      rw [List.isEmpty_iff] at hemp
      subst hemp
      have h2 : qualifyingGapPeriods records [] thresholdMs = [] := by
        unfold qualifyingGapPeriods
        rw [filterMap_if_eq_map_filter]
        simp
      simp [slowRunPeriods, slowLoop_nil_ranges, h2, sortPeriods]
    · rfl
  refine ⟨h1, filterMap_if_eq_map_filter _ _ _, ?_, ?_⟩
  · rw [h1]; exact sortPeriods_sorted _
  · rw [h1]; exact sortPeriods_perm _

/-! ## Invariant lemmas -/

theorem dateSub_none_right (x : Option ℚ) : dateSub x none = none := by
  cases x <;> rfl

theorem dateSub_none_left (y : Option ℚ) : dateSub none y = none := rfl

theorem getLastQ_mem {α : Type} : ∀ {l : List α} {b : α}, l.getLast? = some b → b ∈ l := by
  intro l
  induction l with
  | nil => intro b h; simp at h
  | cons x xs ih =>
    intro b h
    cases xs with
    | nil => simp [List.getLast?] at h; simp [h]
    | cons y ys =>
      rw [List.getLast?_cons_cons] at h
      exact List.mem_cons_of_mem x (ih h)

theorem pairwise_head_getLast {α : Type} {R : α → α → Prop} {l : List α} {a b : α}
    (hp : l.Pairwise R) (ha : l.head? = some a) (hb : l.getLast? = some b) :
    a = b ∨ R a b := by
  cases l with
  | nil => simp at ha
  | cons x xs =>
    rw [List.head?_cons, Option.some_inj] at ha
    subst ha
    cases xs with
    | nil => left; simp [List.getLast?] at hb; simp [hb]
    | cons y ys =>
      right
      rw [List.getLast?_cons_cons] at hb
      exact (List.pairwise_cons.mp hp).1 b (getLastQ_mem hb)

theorem pairwise_zip_tail {α : Type} {R : α → α → Prop} :
    ∀ {l : List α}, l.Pairwise R → ∀ ab ∈ l.zip l.tail, R ab.1 ab.2 := by
  intro l
  induction l with
  | nil => intro _ ab hab; simp at hab
  | cons a l2 ih =>
    intro hp ab hab
    cases l2 with
    | nil => simp at hab
    | cons b l3 =>
      rw [List.tail_cons, List.zip_cons_cons] at hab
      rcases List.mem_cons.mp hab with h | h
      · subst h
        exact (List.pairwise_cons.mp hp).1 b (List.mem_cons_self b l3)
      · exact ih (List.pairwise_cons.mp hp).2 ab h

/-- Inversion of a successful run finalization: the run is non-empty, both
boundary timestamps are present, some selected bucket matched the exact
duration, and the period is the literal built by the code. -/
theorem processSlowSequence_eq_some {run : List FitRecord} {ranges : List String} {p : Period}
    (h : processSlowSequence run ranges = some p) :
    ∃ (sR : FitRecord) (rest : List FitRecord) (ts te : ℚ) (range : String),
      run = sR :: rest ∧
      sR.timestamp = some ts ∧
      ((sR :: rest).getLast (List.cons_ne_nil sR rest)).timestamp = some te ∧
      range ∈ ranges ∧
      matchesTimeRange range ((te - ts) / 60000) ((te - ts) / 60000 / 60) = true ∧
      p = { startTime := some ts,
            endTime := some te,
            recordCount := (sR :: rest).length,
            startDistance := jsOrNum sR.distance 0,
            endDistance := jsOrNum ((sR :: rest).getLast (List.cons_ne_nil sR rest)).distance
              (jsOrNum sR.distance 0),
            gpsPoints := convertGpsCoordinates (sR :: rest),
            isGap := false, gapData := none } := by
  cases run with
  | nil => simp [processSlowSequence] at h
  | cons sR rest =>
    rw [processSlowSequence] at h
    split at h
    · rename_i hmatch
      rw [Option.some_inj] at h
      obtain ⟨range, hrmem, hm⟩ := List.any_eq_true.mp hmatch
      cases hst : sR.timestamp with
      | none => rw [hst, dateSub_none_right] at hm; simp [matchesTimeRangeOpt] at hm
      | some ts =>
        cases he : ((sR :: rest).getLast (List.cons_ne_nil sR rest)).timestamp with
        | none => rw [he, dateSub_none_left] at hm; simp [matchesTimeRangeOpt] at hm
        | some te =>
          rw [hst, he] at hm
          simp only [dateSub, Option.map_some', matchesTimeRangeOpt] at hm
          refine ⟨sR, rest, ts, te, range, rfl, hst, he, hrmem, hm, ?_⟩
          rw [← h, hst, he]
    · cases h

/-- Every period emitted by a successful finalization of a
timestamp-monotone run has present, ordered boundary timestamps, a positive
sample count and `isGap = false`. -/
theorem processSlowSequence_good {cur : List FitRecord} {ranges : List String} {p : Period}
    (hc : cur.Pairwise recLe) (h : processSlowSequence cur ranges = some p) :
    p.startTime.isSome = true ∧ p.endTime.isSome = true ∧
    p.startTime.getD 0 ≤ p.endTime.getD 0 ∧ p.recordCount ≠ 0 ∧ p.isGap = false := by
  obtain ⟨sR, rest, ts, te, range, hrun, hst, he, _, _, hp⟩ := processSlowSequence_eq_some h
  subst hrun
  have hle : ts ≤ te := by
    rcases pairwise_head_getLast hc rfl
        (List.getLast?_eq_getLast_of_ne_nil (List.cons_ne_nil sR rest)) with heq | hrel
    · rw [← heq, hst, Option.some_inj] at he
      exact le_of_eq he
    · exact hrel ts te hst he
  subst hp
  simpa using hle

/-- Loop invariant for the gap-aware scan: if the accumulated run is
timestamp-monotone, the remaining records are timestamp-monotone, and every
accumulated record precedes every remaining record, then every emitted
period is well-formed. -/
theorem slowLoop_good (ranges : List String) (thresholdMs : ℚ) :
    ∀ (rest cur : List FitRecord),
      cur.Pairwise recLe → rest.Pairwise recLe →
      (∀ a ∈ cur, ∀ b ∈ rest, recLe a b) →
      ∀ p ∈ slowLoop ranges thresholdMs cur rest,
        p.startTime.isSome = true ∧ p.endTime.isSome = true ∧
        p.startTime.getD 0 ≤ p.endTime.getD 0 ∧ p.recordCount ≠ 0 ∧ p.isGap = false := by
  intro rest
  induction rest with
  | nil =>
    intro cur hc _ _ p hp
    rw [slowLoop, Option.mem_toList] at hp
    exact processSlowSequence_good hc (Option.mem_def.mp hp)
  | cons r rest2 ih =>
    intro cur hc hrest hfwd p hp
    have hr2 : rest2.Pairwise recLe := (List.pairwise_cons.mp hrest).2
    have hrrest2 : ∀ b ∈ rest2, recLe r b := (List.pairwise_cons.mp hrest).1
    have hsingle : ∀ a ∈ [r], ∀ b ∈ rest2, recLe a b := by
      intro a ha b hb
      rw [List.mem_singleton] at ha
      rw [ha]
      exact hrrest2 b hb
    rw [slowLoop] at hp
    by_cases hsp : effectiveSpeed r < SPEED_THRESHOLD
    · rw [if_pos hsp] at hp
      cases hlast : cur.getLast? with
      | some prev =>
        rw [hlast] at hp
        simp only [] at hp
        by_cases hg : gtNum (dateSub r.timestamp prev.timestamp) thresholdMs = true
        · rw [if_pos hg] at hp
          rcases List.mem_append.mp hp with hmem | hmem
          · exact processSlowSequence_good hc
              (Option.mem_def.mp (Option.mem_toList.mp hmem))
          · exact ih [r] (List.pairwise_singleton _ _) hr2 hsingle p hmem
        · rw [if_neg hg] at hp
          have hpw : (cur ++ [r]).Pairwise recLe := by
            rw [List.pairwise_append]
            refine ⟨hc, List.pairwise_singleton _ _, ?_⟩
            intro a ha b hb
            rw [List.mem_singleton] at hb
            rw [hb]
            exact hfwd a ha r (List.mem_cons_self r rest2)
          have hfwd2 : ∀ a ∈ cur ++ [r], ∀ b ∈ rest2, recLe a b := by
            intro a ha b hb
            rcases List.mem_append.mp ha with h | h
            · exact hfwd a h b (List.mem_cons_of_mem r hb)
            · rw [List.mem_singleton] at h
              rw [h]
              exact hrrest2 b hb
          exact ih (cur ++ [r]) hpw hr2 hfwd2 p hp
      | none =>
        rw [hlast] at hp
        simp only [] at hp
        exact ih [r] (List.pairwise_singleton _ _) hr2 hsingle p hp
    · rw [if_neg hsp] at hp
      rcases List.mem_append.mp hp with hmem | hmem
      · exact processSlowSequence_good hc
          (Option.mem_def.mp (Option.mem_toList.mp hmem))
      · exact ih [] List.Pairwise.nil hr2 (by simp) p hmem

/-- Every emitted period of the scan loop comes from some successful run
finalization. -/
theorem slowLoop_mem_run (ranges : List String) (thresholdMs : ℚ) :
    ∀ (rest cur : List FitRecord) (p : Period),
      p ∈ slowLoop ranges thresholdMs cur rest →
      ∃ run, processSlowSequence run ranges = some p := by
  intro rest
  induction rest with
  | nil =>
    intro cur p hp
    rw [slowLoop, Option.mem_toList] at hp
    exact ⟨cur, Option.mem_def.mp hp⟩
  | cons r rest2 ih =>
    intro cur p hp
    rw [slowLoop] at hp
    by_cases hsp : effectiveSpeed r < SPEED_THRESHOLD
    · rw [if_pos hsp] at hp
      cases hlast : cur.getLast? with
      | some prev =>
        rw [hlast] at hp
        simp only [] at hp
        by_cases hg : gtNum (dateSub r.timestamp prev.timestamp) thresholdMs = true
        · rw [if_pos hg] at hp
          rcases List.mem_append.mp hp with hmem | hmem
          · exact ⟨cur, Option.mem_def.mp (Option.mem_toList.mp hmem)⟩
          · exact ih [r] p hmem
        · rw [if_neg hg] at hp
          exact ih (cur ++ [r]) p hp
      | none =>
        rw [hlast] at hp
        simp only [] at hp
        exact ih [r] p hp
    · rw [if_neg hsp] at hp
      rcases List.mem_append.mp hp with hmem | hmem
      · exact ⟨cur, Option.mem_def.mp (Option.mem_toList.mp hmem)⟩
      · exact ih [] p hmem

/-- Each of the six bucket predicates forces at least two minutes when the
hours argument is minutes divided by 60, as the code always passes it. -/
theorem matchesTimeRange_min_two (range : String) (m : ℚ)
    (h : matchesTimeRange range m (m / 60) = true) : 2 ≤ m := by
  unfold matchesTimeRange at h
  split_ifs at h <;>
    first
      | (simp only [decide_eq_true_eq] at h
         first
           | exact h.1
           | linarith [h.1]
           | linarith)
      | simp at h

/-- Every period of a successful finalization spans at least 120000 ms. -/
theorem processSlowSequence_span {run : List FitRecord} {ranges : List String} {p : Period}
    (h : processSlowSequence run ranges = some p) :
    ∃ s e : ℚ, p.startTime = some s ∧ p.endTime = some e ∧ 120000 ≤ e - s := by
  obtain ⟨sR, rest, ts, te, range, hrun, hst, he, _, hm, hp⟩ := processSlowSequence_eq_some h
  have h2 : 2 ≤ (te - ts) / 60000 := matchesTimeRange_min_two range ((te - ts) / 60000) hm
  subst hp
  exact ⟨ts, te, rfl, rfl, by linarith⟩

/-- C9: for timestamp-monotone input, every period in the merged output has
both boundary timestamps present with `startTime ≤ endTime`, and its sample
count is zero exactly when it is a recording gap. -/
theorem findSlowPeriodsWithRanges_invariants
    (records : List FitRecord) (ranges : List String) (thresholdMs : ℚ)
    (hmono : records.Pairwise recLe)
    (p : Period) (hp : p ∈ findSlowPeriodsWithRanges records ranges thresholdMs) :
    p.startTime.isSome = true ∧ p.endTime.isSome = true ∧
    p.startTime.getD 0 ≤ p.endTime.getD 0 ∧ (p.recordCount = 0 ↔ p.isGap = true) := by
  unfold findSlowPeriodsWithRanges at hp
  split at hp
  · simp at hp
  · rw [mem_sortPeriods] at hp
    rcases List.mem_append.mp hp with hs | hg
    · unfold slowRunPeriods at hs
      obtain ⟨h1, h2, h3, h4, h5⟩ :=
        slowLoop_good ranges thresholdMs records [] List.Pairwise.nil hmono (by simp) p hs
      exact ⟨h1, h2, h3, by simp [h4, h5]⟩
    · unfold qualifyingGapPeriods at hg
      rcases List.mem_filterMap.mp hg with ⟨gap, hgmem, hif⟩
      split at hif
      · rw [Option.some_inj] at hif
        rw [findTimestampGaps_eq_pairs] at hgmem
        rcases List.mem_filterMap.mp hgmem with ⟨pc, hpc, hpceq⟩
        cases h1 : pc.1.timestamp with
        | none => rw [h1] at hpceq; simp at hpceq
        | some t1 =>
          cases h2 : pc.2.timestamp with
          | none => rw [h1, h2] at hpceq; simp at hpceq
          | some t2 =>
            rw [h1, h2] at hpceq
            simp only [] at hpceq
            split at hpceq
            · rw [Option.some_inj] at hpceq
              have hle : t1 ≤ t2 := pairwise_zip_tail hmono pc hpc t1 t2 h1 h2
              rw [← hif, ← hpceq]
              simp [gapAsPeriod, mkGap, hle]
            · cases hpceq
      · cases hif

/-- Witness for C9 at two slow records 2.5 minutes apart with buckets
{2to5}: the single output period satisfies the invariants. -/
theorem findSlowPeriodsWithRanges_invariants_witness :
    (({ startTime := some 0, endTime := some 150000, recordCount := 2, startDistance := 0,
        endDistance := 0, gpsPoints := [], isGap := false,
        gapData := none } : Period).startTime.isSome = true)
    ∧ (({ startTime := some 0, endTime := some 150000, recordCount := 2, startDistance := 0,
          endDistance := 0, gpsPoints := [], isGap := false,
          gapData := none } : Period).endTime.isSome = true)
    ∧ (({ startTime := some 0, endTime := some 150000, recordCount := 2, startDistance := 0,
          endDistance := 0, gpsPoints := [], isGap := false,
          gapData := none } : Period).startTime.getD 0
        ≤ ({ startTime := some 0, endTime := some 150000, recordCount := 2, startDistance := 0,
             endDistance := 0, gpsPoints := [], isGap := false,
             gapData := none } : Period).endTime.getD 0)
    ∧ (({ startTime := some 0, endTime := some 150000, recordCount := 2, startDistance := 0,
          endDistance := 0, gpsPoints := [], isGap := false,
          gapData := none } : Period).recordCount = 0
        ↔ ({ startTime := some 0, endTime := some 150000, recordCount := 2, startDistance := 0,
             endDistance := 0, gpsPoints := [], isGap := false,
             gapData := none } : Period).isGap = true) :=
  findSlowPeriodsWithRanges_invariants
    [{ timestamp := some 0, speed := none, enhancedSpeed := none, distance := none,
       positionLat := none, positionLong := none },
     { timestamp := some 150000, speed := none, enhancedSpeed := none, distance := none,
       positionLat := none, positionLong := none }]
    ["2to5"] 300000
    (by
      refine List.Pairwise.cons ?_ (List.pairwise_singleton _ _)
      intro b hb
      rw [List.mem_singleton] at hb
      rw [hb]
      intro t1 t2 h1 h2
      injection h1 with h1
      injection h2 with h2
      rw [← h1, ← h2]
      norm_num)
    _
    (by
      norm_num [findSlowPeriodsWithRanges, slowRunPeriods, qualifyingGapPeriods, slowLoop,
        processSlowSequence, findTimestampGaps, dateSub, matchesTimeRangeOpt, matchesTimeRange,
        effectiveSpeed, jsOrNum, truthyNum, SPEED_THRESHOLD, gtNum, convertGpsCoordinates,
        truthyInt, sortPeriods, List.insertionSort, List.orderedInsert, List.getLast])

/-- C10: for every record list and non-empty bucket selection, every
non-gap period of the merged output has present boundary timestamps at
least 120000 ms (2 minutes) apart: each bucket predicate forces at least
2 minutes, so a shorter slow run is discarded under every selection. -/
theorem nonGap_periods_span_at_least_two_minutes
    (records : List FitRecord) (ranges : List String) (thresholdMs : ℚ)
    (hne : ranges ≠ [])
    (p : Period) (hp : p ∈ findSlowPeriodsWithRanges records ranges thresholdMs)
    (hng : p.isGap = false) :
    ∃ s e : ℚ, p.startTime = some s ∧ p.endTime = some e ∧ 120000 ≤ e - s := by
  unfold findSlowPeriodsWithRanges at hp
  split at hp
  · simp at hp
  · rw [mem_sortPeriods] at hp
    rcases List.mem_append.mp hp with hs | hg
    · unfold slowRunPeriods at hs
      obtain ⟨run, hrun⟩ := slowLoop_mem_run ranges thresholdMs records [] p hs
      exact processSlowSequence_span hrun
    · exfalso
      unfold qualifyingGapPeriods at hg
      rcases List.mem_filterMap.mp hg with ⟨gap, _, hif⟩
      split at hif
      · rw [Option.some_inj] at hif
        rw [← hif] at hng
        simp [gapAsPeriod] at hng
      · cases hif

/-- Witness for C10 at two slow records 4 minutes apart with buckets
{2to5}. -/
theorem nonGap_periods_span_witness :
    ∃ s e : ℚ,
      ({ startTime := some 0, endTime := some 240000, recordCount := 2, startDistance := 0,
         endDistance := 0, gpsPoints := [], isGap := false,
         gapData := none } : Period).startTime = some s
      ∧ ({ startTime := some 0, endTime := some 240000, recordCount := 2, startDistance := 0,
           endDistance := 0, gpsPoints := [], isGap := false,
           gapData := none } : Period).endTime = some e
      ∧ 120000 ≤ e - s :=
  nonGap_periods_span_at_least_two_minutes
    [{ timestamp := some 0, speed := none, enhancedSpeed := none, distance := none,
       positionLat := none, positionLong := none },
     { timestamp := some 240000, speed := none, enhancedSpeed := none, distance := none,
       positionLat := none, positionLong := none }]
    ["2to5"] 300000 (by simp)
    _
    (by
      norm_num [findSlowPeriodsWithRanges, slowRunPeriods, qualifyingGapPeriods, slowLoop,
        processSlowSequence, findTimestampGaps, dateSub, matchesTimeRangeOpt, matchesTimeRange,
        effectiveSpeed, jsOrNum, truthyNum, SPEED_THRESHOLD, gtNum, convertGpsCoordinates,
        truthyInt, sortPeriods, List.insertionSort, List.orderedInsert, List.getLast])
    rfl

end Fafftime
